import Mathlib

set_option maxRecDepth 10000

/-!
A verification development of the finshadow threat-intelligence core:
the OTX normalizer with its content-hash identity, the deduplicating
ingestion loop, the rule-based risk engine `computeRisk`, the baseline /
spike detector, and the alert emission contract.

Modelling conventions:
* timestamps are milliseconds since the epoch, as `Int` (JavaScript
  `Date.getTime()`); a call to `new Date()` inside a function is made
  explicit as a `now : Int` parameter;
* JavaScript `number` arithmetic is modelled over `ℚ` (the scores and
  day counts involved are far below any float-precision boundary);
* strings are processed at the byte level (`List Nat` of code points);
  all concrete inputs considered are ASCII, where this coincides with
  the UTF-8 bytes that `crypto.createHash` consumes;
* the persisted store is a list of rows; database `unique` lookups and
  updates become list scans keyed by the unique column.
-/

/-! ### Byte-level string utilities (`toLowerCase`, `includes`) -/

/-- The code points of a string, the byte view used throughout (ASCII inputs). -/
def strBytes (s : String) : List Nat := s.data.map Char.toNat

/-- ASCII lower-casing of one code point, as `String.prototype.toLowerCase`
acts on the ASCII range. -/
def charLowerN (n : Nat) : Nat := if 65 ≤ n ∧ n ≤ 90 then n + 32 else n

/-- Lower-cased byte view of a string. -/
def lowerBytes (s : String) : List Nat := (strBytes s).map charLowerN

/-- Whether `p` occurs at the head of `l`. -/
def listStartsWith (p l : List Nat) : Bool :=
  match p, l with
  | [], _ => true
  | _ :: _, [] => false
  | a :: p', b :: l' => a == b && listStartsWith p' l'

/-- Whether `p` occurs contiguously anywhere in `l` (substring search). -/
def listOccursIn (p l : List Nat) : Bool :=
  match l with
  | [] => listStartsWith p []
  | _ :: l' => listStartsWith p l || listOccursIn p l'

/-- `hay.toLowerCase().includes(kw)` for an already-lower-case keyword `kw`. -/
def jsIncludes (hay kw : String) : Bool := listOccursIn (strBytes kw) (lowerBytes hay)

/-! ### Risk engine data model (`server/risk/engine.ts`)

`IntelRecord` is the shape of a `threat_intel` row as `computeRisk` consumes
it (the function is written against `any`, defensively): `severity` is an
arbitrary string, and `indicators` / `tags` may be absent altogether. -/

structure Indicator where
  type : String
  value : String
deriving DecidableEq, Repr

structure IntelRecord where
  id : String
  title : String
  description : Option String
  severity : String
  tags : Option (List String)
  indicators : Option (List Indicator)
  discoveredAt : Int
deriving DecidableEq, Repr

structure RiskComputation where
  threatIntelId : String
  score : ℤ
  severity : String
  rulesFired : List String
  reasoning : List String
deriving DecidableEq, Repr

def FINTECH_KEYWORDS : List String :=
  ["fintech", "bank", "payment", "credit", "atm", "swift", "wire"]

/-- Rule 1 base table with the `|| 0` fallback for an unknown severity. -/
def severityScores (s : String) : ℚ :=
  if s = "critical" then 80
  else if s = "high" then 60
  else if s = "medium" then 40
  else if s = "low" then 20
  else if s = "info" then 5
  else 0

/-- Rule 2 guard: any keyword occurs in the lower-cased title, description
(optional-chained), or one of the tags (`tags || []`). -/
def isFintechRelated (r : IntelRecord) : Bool :=
  FINTECH_KEYWORDS.any (fun kw =>
    jsIncludes r.title kw ||
    (match r.description with
     | some d => jsIncludes d kw
     | none => false) ||
    (r.tags.getD []).any (fun t => jsIncludes t kw))

def MS_PER_DAY : ℚ := 86400000

/-- `daysOld = (now - discoveredAt) / (1000*60*60*24)`. -/
def daysOld (r : IntelRecord) (now : Int) : ℚ :=
  ((now - r.discoveredAt : ℤ) : ℚ) / MS_PER_DAY

/-- Rule 3 factor: `Math.max(0.5, 1 - (daysOld - 30) / 180)`. -/
def decayFactor (d : ℚ) : ℚ := max (1/2) (1 - (d - 30) / 180)

/-- Running total after rules 1 and 2. -/
def scoreAfterFintech (r : IntelRecord) : ℚ :=
  severityScores r.severity + (if isFintechRelated r then 20 else 0)

/-- Running total after rule 3 (`totalScore *= decayFactor` when older than 30 days). -/
def scoreAfterDecay (r : IntelRecord) (now : Int) : ℚ :=
  if 30 < daysOld r now then scoreAfterFintech r * decayFactor (daysOld r now)
  else scoreAfterFintech r

/-- `(intelRecord.indicators || []).length`. -/
def indicatorCount (r : IntelRecord) : Nat := (r.indicators.getD []).length

/-- Running total after rule 4 (+10 when more than 5 indicators). -/
def totalScore (r : IntelRecord) (now : Int) : ℚ :=
  scoreAfterDecay r now + (if 5 < indicatorCount r then 10 else 0)

/-- `Math.min(100, Math.max(0, totalScore))`. -/
def finalScore (r : IntelRecord) (now : Int) : ℚ :=
  min 100 (max 0 (totalScore r now))

/-- `Math.round` for the non-negative values produced here: round half up. -/
def jsRound (q : ℚ) : ℤ := ⌊q + 1/2⌋

/-- The severity ladder applied to the (unrounded) `finalScore`. -/
def scoreSeverity (q : ℚ) : String :=
  if 85 ≤ q then "critical"
  else if 70 ≤ q then "high"
  else if 40 ≤ q then "medium"
  else "low"

/-- The point penalty recorded for rule 3: `totalScore * (1 - decayFactor)`
taken before the multiplication. -/
def decayPenalty (r : IntelRecord) (now : Int) : ℚ :=
  scoreAfterFintech r * (1 - decayFactor (daysOld r now))

/-- `rules.filter(r => r.fired).map(r => r.name)` in push order. -/
def rulesFiredList (r : IntelRecord) (now : Int) : List String :=
  ["severity_weighted"] ++
  (if isFintechRelated r then ["fintech_relevance"] else []) ++
  (if 30 < daysOld r now then ["recency_decay"] else []) ++
  (if 5 < indicatorCount r then ["high_indicator_count"] else [])

/-- `toFixed(0)` for the non-negative values formatted here. -/
def jsToFixed0 (q : ℚ) : ℤ := ⌊q + 1/2⌋

/-- The reasoning lines pushed in rule order (the code joins them with a
newline; quotes around the severity are elided in this model). -/
def reasoningList (r : IntelRecord) (now : Int) : List String :=
  ["Severity " ++ r.severity ++ " base score: +" ++ toString (severityScores r.severity)] ++
  (if isFintechRelated r then ["Fintech-related indicators detected: +20"] else []) ++
  (if 30 < daysOld r now then
    ["Discovered " ++ toString (jsToFixed0 (daysOld r now)) ++ " days ago: " ++
      toString (jsToFixed0 (decayPenalty r now)) ++ " recency penalty"]
   else []) ++
  (if 5 < indicatorCount r then
    [toString (indicatorCount r) ++ " indicators detected: +10"] else [])

/-- `computeRisk(intelRecord)`, with the internal `new Date()` made the
explicit parameter `now`. -/
def computeRisk (r : IntelRecord) (now : Int) : RiskComputation :=
  { threatIntelId := r.id
    score := jsRound (finalScore r now)
    severity := scoreSeverity (finalScore r now)
    rulesFired := rulesFiredList r now
    reasoning := reasoningList r now }

/-! ### Shared facts about the risk rules -/

theorem severityScores_nonneg (s : String) : 0 ≤ severityScores s := by
  unfold severityScores
  split_ifs <;> norm_num

theorem scoreAfterFintech_nonneg (r : IntelRecord) : 0 ≤ scoreAfterFintech r := by
  unfold scoreAfterFintech
  have h : (0:ℚ) ≤ if isFintechRelated r then 20 else 0 := by split <;> norm_num
  have := severityScores_nonneg r.severity
  linarith

theorem daysOld_le_of_le {r : IntelRecord} {d' now : Int} (h : r.discoveredAt ≤ d') :
    daysOld {r with discoveredAt := d'} now ≤ daysOld r now := by
  unfold daysOld
  have hc : ((now - d' : ℤ) : ℚ) ≤ ((now - r.discoveredAt : ℤ) : ℚ) := by
    exact_mod_cast sub_le_sub_left h now
  have hpos : (0:ℚ) < MS_PER_DAY := by norm_num [MS_PER_DAY]
  exact (div_le_div_iff_of_pos_right hpos).mpr hc

theorem decayFactor_antitone {d1 d2 : ℚ} (h : d2 ≤ d1) : decayFactor d1 ≤ decayFactor d2 := by
  unfold decayFactor
  exact max_le_max le_rfl (by linarith)

/-- The severity ladder read off the unrounded score, as an iff for each bucket. -/
theorem scoreSeverity_spec (q : ℚ) :
    (scoreSeverity q = "critical" ↔ 85 ≤ q) ∧
    (scoreSeverity q = "high" ↔ 70 ≤ q ∧ q < 85) ∧
    (scoreSeverity q = "medium" ↔ 40 ≤ q ∧ q < 70) ∧
    (scoreSeverity q = "low" ↔ q < 40) := by
  unfold scoreSeverity
  rcases le_or_lt 85 q with hA | hA
  · rw [if_pos hA]
    exact ⟨⟨fun _ => hA, fun _ => rfl⟩,
      ⟨fun h => absurd h (by decide), fun h => by obtain ⟨h1, h2⟩ := h; exfalso; linarith⟩,
      ⟨fun h => absurd h (by decide), fun h => by obtain ⟨h1, h2⟩ := h; exfalso; linarith⟩,
      ⟨fun h => absurd h (by decide), fun h => by exfalso; linarith⟩⟩
  · rw [if_neg (not_le.mpr hA)]
    rcases le_or_lt 70 q with hB | hB
    · rw [if_pos hB]
      exact ⟨⟨fun h => absurd h (by decide), fun h => by exfalso; linarith⟩,
        ⟨fun _ => ⟨hB, hA⟩, fun _ => rfl⟩,
        ⟨fun h => absurd h (by decide), fun h => by obtain ⟨h1, h2⟩ := h; exfalso; linarith⟩,
        ⟨fun h => absurd h (by decide), fun h => by exfalso; linarith⟩⟩
    · rw [if_neg (not_le.mpr hB)]
      rcases le_or_lt 40 q with hC | hC
      · rw [if_pos hC]
        exact ⟨⟨fun h => absurd h (by decide), fun h => by exfalso; linarith⟩,
          ⟨fun h => absurd h (by decide), fun h => by obtain ⟨h1, h2⟩ := h; exfalso; linarith⟩,
          ⟨fun _ => ⟨hC, hB⟩, fun _ => rfl⟩,
          ⟨fun h => absurd h (by decide), fun h => by exfalso; linarith⟩⟩
      · rw [if_neg (not_le.mpr hC)]
        exact ⟨⟨fun h => absurd h (by decide), fun h => by exfalso; linarith⟩,
          ⟨fun h => absurd h (by decide), fun h => by obtain ⟨h1, h2⟩ := h; exfalso; linarith⟩,
          ⟨fun h => absurd h (by decide), fun h => by obtain ⟨h1, h2⟩ := h; exfalso; linarith⟩,
          ⟨fun _ => hC, fun _ => rfl⟩⟩

/-! ### C2 — determinism of computeRisk -/

/-- C2: `computeRisk` is deterministic and depends on nothing but its
arguments: two records agreeing on every field the engine reads
(severity, title, description, tags, indicators, discoveredAt) scored at
the same `now` (the clock read, made an explicit argument) yield
bit-identical score, severity, rulesFired and reasoning. -/
theorem computeRisk_deterministic (r r' : IntelRecord) (now now' : Int)
    (hsev : r.severity = r'.severity) (htitle : r.title = r'.title)
    (hdesc : r.description = r'.description) (htags : r.tags = r'.tags)
    (hind : r.indicators = r'.indicators) (hdisc : r.discoveredAt = r'.discoveredAt)
    (hnow : now = now') :
    (computeRisk r now).score = (computeRisk r' now').score ∧
    (computeRisk r now).severity = (computeRisk r' now').severity ∧
    (computeRisk r now).rulesFired = (computeRisk r' now').rulesFired ∧
    (computeRisk r now).reasoning = (computeRisk r' now').reasoning := by
  cases r with
  | mk id title desc sev tags inds disc =>
    cases r' with
    | mk id' title' desc' sev' tags' inds' disc' =>
      dsimp only at hsev htitle hdesc htags hind hdisc
      subst hsev htitle hdesc htags hind hdisc hnow
      exact ⟨rfl, rfl, rfl, rfl⟩

def rDetA : IntelRecord :=
  { id := "a", title := "wire fraud report", description := none, severity := "high",
    tags := none, indicators := none, discoveredAt := 0 }

def rDetB : IntelRecord :=
  { rDetA with id := "b" }

/-- C2 witness: two concrete invocations with identical scoring inputs
(differing only in the unread `id` field) agree on all four outputs. -/
theorem computeRisk_deterministic_witness :
    (computeRisk rDetA 5).score = (computeRisk rDetB 5).score ∧
    (computeRisk rDetA 5).severity = (computeRisk rDetB 5).severity ∧
    (computeRisk rDetA 5).rulesFired = (computeRisk rDetB 5).rulesFired ∧
    (computeRisk rDetA 5).reasoning = (computeRisk rDetB 5).reasoning :=
  computeRisk_deterministic rDetA rDetB 5 5 rfl rfl rfl rfl rfl rfl rfl

/-! ### C3 — severity buckets -/

/-- The record exhibiting the rounding gap: critical base 80, fintech +20,
75.36 days old (decay 0.748), six indicators; unrounded final score 84.8. -/
def ex3 : IntelRecord :=
  { id := "t3", title := "bank alert", description := none, severity := "critical",
    tags := some [], indicators := some
      [⟨"IPv4", "1.1.1.1"⟩, ⟨"IPv4", "1.1.1.2"⟩, ⟨"IPv4", "1.1.1.3"⟩,
       ⟨"IPv4", "1.1.1.4"⟩, ⟨"IPv4", "1.1.1.5"⟩, ⟨"IPv4", "1.1.1.6"⟩],
    discoveredAt := 0 }

/-- C3 counterexample: the buckets are keyed on the unrounded final score,
while the returned score is rounded afterwards, so the claimed
biconditional on the returned score fails: this record returns
score = 85 (rounded from 84.8) with severity "high", not "critical". -/
theorem severity_bucket_rounding_gap :
    (computeRisk ex3 6511104000).score = 85 ∧
    (computeRisk ex3 6511104000).severity = "high" ∧
    ¬((computeRisk ex3 6511104000).severity = "critical" ↔
        85 ≤ (computeRisk ex3 6511104000).score) := by
  have hf : isFintechRelated ex3 = true := by decide
  have h80 : severityScores ex3.severity = 80 := by decide
  have h6 : indicatorCount ex3 = 6 := by decide
  have hd : daysOld ex3 6511104000 = 1884/25 := by norm_num [daysOld, ex3, MS_PER_DAY]
  have hsf : scoreAfterFintech ex3 = 100 := by norm_num [scoreAfterFintech, hf, h80]
  have hsd : scoreAfterDecay ex3 6511104000 = 374/5 := by
    unfold scoreAfterDecay
    rw [hd, hsf]
    norm_num [decayFactor, max_def]
  have hts : totalScore ex3 6511104000 = 424/5 := by
    unfold totalScore
    rw [hsd, h6]
    norm_num
  have hfs : finalScore ex3 6511104000 = 424/5 := by
    unfold finalScore
    rw [hts]
    norm_num [min_def, max_def]
  have hscore : (computeRisk ex3 6511104000).score = 85 := by
    show jsRound (finalScore ex3 6511104000) = 85
    rw [hfs]; norm_num [jsRound, Int.floor_eq_iff]
  have hsev : (computeRisk ex3 6511104000).severity = "high" := by
    show scoreSeverity (finalScore ex3 6511104000) = "high"
    rw [hfs]; norm_num [scoreSeverity]
  refine ⟨hscore, hsev, fun hiff => ?_⟩
  have : (computeRisk ex3 6511104000).severity = "critical" := hiff.mpr (by rw [hscore])
  rw [hsev] at this
  exact absurd this (by decide)

/-- C3 (amended): the severity returned by `computeRisk` is a pure function
of the unrounded clamped final score with exactly the stated buckets
(critical iff ≥85, high iff 70≤·<85, medium iff 40≤·<70, low iff <40);
the integer `score` field is that value rounded and can cross a bucket
boundary that the severity was computed below. -/
theorem computeRisk_severity_buckets (r : IntelRecord) (now : Int) :
    ((computeRisk r now).severity = "critical" ↔ 85 ≤ finalScore r now) ∧
    ((computeRisk r now).severity = "high" ↔ 70 ≤ finalScore r now ∧ finalScore r now < 85) ∧
    ((computeRisk r now).severity = "medium" ↔ 40 ≤ finalScore r now ∧ finalScore r now < 70) ∧
    ((computeRisk r now).severity = "low" ↔ finalScore r now < 40) :=
  scoreSeverity_spec (finalScore r now)

/-! ### C6 — recency monotonicity -/

/-- C6: for two records identical in every field but `discoveredAt`, both
more than 30 days old at scoring time, the older one (smaller
`discoveredAt`) never receives a higher final score: the decay factor
`max(0.5, 1 − (ageDays−30)/180)` is antitone in age and is applied
multiplicatively to the nonnegative accumulated total. -/
theorem computeRisk_recency_monotone (r : IntelRecord) (d' now : Int)
    (h1 : 30 < daysOld r now) (h2 : 30 < daysOld {r with discoveredAt := d'} now)
    (holder : r.discoveredAt ≤ d') :
    (computeRisk r now).score ≤ (computeRisk {r with discoveredAt := d'} now).score := by
  have hb : (0:ℚ) ≤ scoreAfterFintech r := scoreAfterFintech_nonneg r
  have hbeq : scoreAfterFintech {r with discoveredAt := d'} = scoreAfterFintech r := rfl
  have hd : daysOld {r with discoveredAt := d'} now ≤ daysOld r now := daysOld_le_of_le holder
  have hdec : decayFactor (daysOld r now) ≤ decayFactor (daysOld {r with discoveredAt := d'} now) :=
    decayFactor_antitone hd
  have hsd : scoreAfterDecay r now ≤ scoreAfterDecay {r with discoveredAt := d'} now := by
    unfold scoreAfterDecay
    rw [if_pos h1, if_pos h2, hbeq]
    exact mul_le_mul_of_nonneg_left hdec hb
  have hts : totalScore r now ≤ totalScore {r with discoveredAt := d'} now := by
    unfold totalScore
    have hic : indicatorCount {r with discoveredAt := d'} = indicatorCount r := rfl
    rw [hic]
    exact add_le_add_right hsd _
  have hfs : finalScore r now ≤ finalScore {r with discoveredAt := d'} now := by
    unfold finalScore
    exact min_le_min le_rfl (max_le_max le_rfl hts)
  show jsRound (finalScore r now) ≤ jsRound (finalScore {r with discoveredAt := d'} now)
  unfold jsRound
  exact Int.floor_le_floor (by linarith)

def rMono : IntelRecord :=
  { id := "w6", title := "atm skimming", description := none, severity := "high",
    tags := none, indicators := none, discoveredAt := 0 }

/-- C6 witness: a record 100 days old scores no higher than the same record
redated to be 90 days old. -/
theorem computeRisk_recency_monotone_witness :
    30 < daysOld rMono 8640000000 ∧
    30 < daysOld {rMono with discoveredAt := 864000000} 8640000000 ∧
    rMono.discoveredAt ≤ 864000000 ∧
    (computeRisk rMono 8640000000).score ≤
      (computeRisk {rMono with discoveredAt := 864000000} 8640000000).score := by
  have hx : 30 < daysOld rMono 8640000000 := by norm_num [daysOld, rMono, MS_PER_DAY]
  have hy : 30 < daysOld {rMono with discoveredAt := 864000000} 8640000000 := by
    norm_num [daysOld, rMono, MS_PER_DAY]
  exact ⟨hx, hy, by decide,
    computeRisk_recency_monotone rMono 864000000 8640000000 hx hy (by decide)⟩

/-! ### C10 — totality of computeRisk at its interface

`severityScores[intelRecord.severity] || 0` is a JavaScript property
lookup on an object literal. Three cases arise:
* an own property (one of the five severities) yields its number;
* a name with no property at all yields `undefined`, and `|| 0`
  substitutes 0;
* a name inherited from `Object.prototype` ("toString", "constructor",
  "valueOf", "hasOwnProperty", "__proto__", ...) yields that truthy
  function or object, so `|| 0` does NOT fire: `totalScore += base` then
  concatenates it into a non-numeric string, and `Math.max(0, ...)`,
  `Math.min` and `Math.round` turn the final score into NaN.
`severityScoresJS` models the full lookup; `computeRiskScoreJS` models
the returned score with `none` standing for NaN. On the two numeric
branches the base agrees with the plain table `severityScores`
(`severityScoresJS_agrees`), so the numeric pipeline `finalScore` is
reused there. -/

inductive JSLookup where
  | num : ℚ → JSLookup
  | nonNumber : JSLookup
  | undef : JSLookup
deriving DecidableEq, Repr

/-- The own property names of `Object.prototype`, inherited by every
object literal (Node/V8). -/
def OBJECT_PROTOTYPE_MEMBERS : List String :=
  ["constructor", "hasOwnProperty", "isPrototypeOf", "propertyIsEnumerable",
   "toLocaleString", "toString", "valueOf", "__proto__",
   "__defineGetter__", "__defineSetter__", "__lookupGetter__", "__lookupSetter__"]

/-- The value of the lookup `severityScores[s]` under JavaScript semantics. -/
def severityScoresJS (s : String) : JSLookup :=
  if s = "critical" then JSLookup.num 80
  else if s = "high" then JSLookup.num 60
  else if s = "medium" then JSLookup.num 40
  else if s = "low" then JSLookup.num 20
  else if s = "info" then JSLookup.num 5
  else if s ∈ OBJECT_PROTOTYPE_MEMBERS then JSLookup.nonNumber
  else JSLookup.undef

/-- On the numeric branches of the lookup, `... || 0` gives exactly the
plain table `severityScores` used by the numeric pipeline. -/
theorem severityScoresJS_agrees (s : String) :
    (∀ q : ℚ, severityScoresJS s = JSLookup.num q → severityScores s = q) ∧
    (severityScoresJS s = JSLookup.undef → severityScores s = 0) := by
  unfold severityScoresJS severityScores
  split_ifs <;> refine ⟨fun q h => ?_, fun h => ?_⟩ <;> simp_all

/-- The score field `computeRisk` returns, with the prototype-chain case
made explicit: `none` is NaN (a truthy non-number survives `|| 0` and
poisons the arithmetic); otherwise the numeric pipeline runs. -/
def computeRiskScoreJS (r : IntelRecord) (now : Int) : Option ℤ :=
  match severityScoresJS r.severity with
  | JSLookup.nonNumber => none
  | JSLookup.num _ => some (jsRound (finalScore r now))
  | JSLookup.undef => some (jsRound (finalScore r now))

theorem jsRound_finalScore_bounds (r : IntelRecord) (now : Int) :
    0 ≤ jsRound (finalScore r now) ∧ jsRound (finalScore r now) ≤ 100 := by
  have h0 : (0:ℚ) ≤ finalScore r now := le_min (by norm_num) (le_max_left 0 _)
  have h100 : finalScore r now ≤ 100 := min_le_left _ _
  constructor
  · show (0:ℤ) ≤ jsRound (finalScore r now)
    exact Int.le_floor.mpr (by push_cast; linarith)
  · show jsRound (finalScore r now) ≤ 100
    unfold jsRound
    calc ⌊finalScore r now + 1/2⌋ ≤ ⌊(201:ℚ)/2⌋ := Int.floor_le_floor (by linarith)
    _ = 100 := by norm_num [Int.floor_eq_iff]

def rProto : IntelRecord :=
  { id := "p", title := "x", description := none, severity := "toString",
    tags := none, indicators := none, discoveredAt := 0 }

/-- C10 counterexample: the severity "toString" is outside the five known
values, yet its lookup hits the inherited `Object.prototype.toString`
function — a truthy non-number — so the base is not 0 and the returned
score is NaN, not an integer clamped to [0, 100]. -/
theorem computeRisk_prototype_counterexample :
    rProto.severity ∉ ["critical", "high", "medium", "low", "info"] ∧
    severityScoresJS rProto.severity = JSLookup.nonNumber ∧
    computeRiskScoreJS rProto 0 = none ∧
    ¬∃ z : ℤ, computeRiskScoreJS rProto 0 = some z ∧ 0 ≤ z ∧ z ≤ 100 := by
  have hnone : computeRiskScoreJS rProto 0 = none := by decide
  refine ⟨by decide, by decide, hnone, ?_⟩
  rintro ⟨z, hz, _⟩
  rw [hnone] at hz
  exact Option.noConfusion hz

/-- C10 (amended): `computeRisk` never throws, but its output is numeric
only away from the prototype chain: for a record whose severity is not
an `Object.prototype` property name the returned score is an integer
clamped to [0, 100], and when it is also outside the five known values
the base contribution is 0 (`|| 0` fires on `undefined`); for a severity
naming an inherited `Object.prototype` member the lookup is a truthy
non-number, `|| 0` does not fire, and the returned score is NaN. -/
theorem severityScoresJS_eq_nonNumber_iff (s : String) :
    severityScoresJS s = JSLookup.nonNumber ↔
      (s ∉ ["critical", "high", "medium", "low", "info"] ∧
        s ∈ OBJECT_PROTOTYPE_MEMBERS) := by
  unfold severityScoresJS
  split_ifs with h1 h2 h3 h4 h5 h6 <;> simp_all

theorem severityScoresJS_num_five (s : String) (q : ℚ)
    (h : severityScoresJS s = JSLookup.num q) :
    s ∈ ["critical", "high", "medium", "low", "info"] := by
  unfold severityScoresJS at h
  split_ifs at h <;> simp_all

theorem severityScoresJS_undef_iff (s : String) :
    severityScoresJS s = JSLookup.undef ↔
      (s ∉ ["critical", "high", "medium", "low", "info"] ∧
        s ∉ OBJECT_PROTOTYPE_MEMBERS) := by
  unfold severityScoresJS
  split_ifs with h1 h2 h3 h4 h5 h6 <;> simp_all

/-- C10 (amended): `computeRisk` never throws, but its output is numeric
only away from the prototype chain: for a record whose severity is not
an `Object.prototype` property name the returned score is an integer
clamped to [0, 100], and when it is also outside the five known values
the base contribution is 0 (`|| 0` fires on `undefined`); for a severity
naming an inherited `Object.prototype` member the lookup is a truthy
non-number, `|| 0` does not fire, and the returned score is NaN. -/
theorem computeRiskScoreJS_cases (r : IntelRecord) (now : Int) :
    (r.severity ∉ OBJECT_PROTOTYPE_MEMBERS →
      ∃ z : ℤ, computeRiskScoreJS r now = some z ∧ 0 ≤ z ∧ z ≤ 100) ∧
    (r.severity ∉ ["critical", "high", "medium", "low", "info"] →
      r.severity ∉ OBJECT_PROTOTYPE_MEMBERS → severityScores r.severity = 0) ∧
    (r.severity ∈ OBJECT_PROTOTYPE_MEMBERS → computeRiskScoreJS r now = none) := by
  refine ⟨fun hp => ?_, fun h5 hp => ?_, fun hp => ?_⟩
  · refine ⟨jsRound (finalScore r now), ?_,
      (jsRound_finalScore_bounds r now).1, (jsRound_finalScore_bounds r now).2⟩
    unfold computeRiskScoreJS
    cases hjs : severityScoresJS r.severity with
    | num q => rfl
    | nonNumber =>
      exact absurd ((severityScoresJS_eq_nonNumber_iff r.severity).mp hjs).2 hp
    | undef => rfl
  · simp only [List.mem_cons, List.not_mem_nil] at h5
    push_neg at h5
    unfold severityScores
    split_ifs with a b c d e <;> simp_all
  · unfold computeRiskScoreJS
    cases hjs : severityScoresJS r.severity with
    | num q =>
      have hfive := severityScoresJS_num_five r.severity q hjs
      simp only [List.mem_cons, List.not_mem_nil, or_false] at hfive
      rcases hfive with h | h | h | h | h <;> rw [h] at hp <;>
        exact absurd hp (by decide)
    | nonNumber => rfl
    | undef =>
      exact absurd hp ((severityScoresJS_undef_iff r.severity).mp hjs).2

def rUnk : IntelRecord :=
  { id := "u", title := "odd record", description := none, severity := "weird",
    tags := none, indicators := none, discoveredAt := 0 }

/-- C10 witness: the numeric branches evaluated at a concrete unknown
non-prototype severity, and the NaN branch at the concrete prototype
severity "toString". -/
theorem computeRiskScoreJS_cases_witness :
    (∃ z : ℤ, computeRiskScoreJS rUnk 0 = some z ∧ 0 ≤ z ∧ z ≤ 100) ∧
    severityScores rUnk.severity = 0 ∧
    computeRiskScoreJS rProto 0 = none := by
  obtain ⟨a, b, -⟩ := computeRiskScoreJS_cases rUnk 0
  obtain ⟨-, -, c⟩ := computeRiskScoreJS_cases rProto 0
  exact ⟨a (by decide), b (by decide) (by decide), c (by decide)⟩

/-! ### SHA-256 (`crypto.createHash("sha256")`), FIPS 180-4 over byte lists -/

def w32 (n : Nat) : Nat := n % 4294967296

def rotr (k n : Nat) : Nat := w32 ((n >>> k) ||| (n <<< (32 - k)))

def bSig0 (x : Nat) : Nat := (rotr 2 x) ^^^ (rotr 13 x) ^^^ (rotr 22 x)
def bSig1 (x : Nat) : Nat := (rotr 6 x) ^^^ (rotr 11 x) ^^^ (rotr 25 x)
def sSig0 (x : Nat) : Nat := (rotr 7 x) ^^^ (rotr 18 x) ^^^ (x >>> 3)
def sSig1 (x : Nat) : Nat := (rotr 17 x) ^^^ (rotr 19 x) ^^^ (x >>> 10)

def chFn (x y z : Nat) : Nat := (x &&& y) ^^^ ((x ^^^ 4294967295) &&& z)
def majFn (x y z : Nat) : Nat := (x &&& y) ^^^ (x &&& z) ^^^ (y &&& z)

def K256 : List Nat :=
  [1116352408, 1899447441, 3049323471, 3921009573, 961987163,
   1508970993, 2453635748, 2870763221, 3624381080, 310598401,
   607225278, 1426881987, 1925078388, 2162078206, 2614888103,
   3248222580, 3835390401, 4022224774, 264347078, 604807628,
   770255983, 1249150122, 1555081692, 1996064986, 2554220882,
   2821834349, 2952996808, 3210313671, 3336571891, 3584528711,
   113926993, 338241895, 666307205, 773529912, 1294757372,
   1396182291, 1695183700, 1986661051, 2177026350, 2456956037,
   2730485921, 2820302411, 3259730800, 3345764771, 3516065817,
   3600352804, 4094571909, 275423344, 430227734, 506948616,
   659060556, 883997877, 958139571, 1322822218, 1537002063,
   1747873779, 1955562222, 2024104815, 2227730452, 2361852424,
   2428436474, 2756734187, 3204031479, 3329325298]

def H256 : List Nat :=
  [1779033703, 3144134277, 1013904242, 2773480762,
   1359893119, 2600822924, 528734635, 1541459225]

/-- Big-endian 8-byte encoding of the bit length. -/
def bytesBE8 (n : Nat) : List Nat :=
  (List.range 8).map (fun i => (n >>> (8 * (7 - i))) % 256)

def padMessage (msg : List Nat) : List Nat :=
  let zeros := (64 - ((msg.length + 9) % 64)) % 64
  msg ++ [128] ++ List.replicate zeros 0 ++ bytesBE8 (msg.length * 8)

def chunk64 : Nat → List Nat → List (List Nat)
  | 0, _ => []
  | n + 1, l => l.take 64 :: chunk64 n (l.drop 64)

def words16 (block : List Nat) : List Nat :=
  (List.range 16).map (fun i =>
    (block.getD (4 * i) 0) * 16777216 + (block.getD (4 * i + 1) 0) * 65536 +
    (block.getD (4 * i + 2) 0) * 256 + block.getD (4 * i + 3) 0)

def extendStep (acc : List Nat) : List Nat :=
  let L := acc.length
  acc ++ [w32 (sSig1 (acc.getD (L - 2) 0) + acc.getD (L - 7) 0 +
               sSig0 (acc.getD (L - 15) 0) + acc.getD (L - 16) 0)]

def schedule (block : List Nat) : List Nat :=
  (List.range 48).foldl (fun acc _ => extendStep acc) (words16 block)

def compressStep (st : List Nat) (kw : Nat × Nat) : List Nat :=
  let a := st.getD 0 0
  let b := st.getD 1 0
  let c := st.getD 2 0
  let d := st.getD 3 0
  let e := st.getD 4 0
  let f := st.getD 5 0
  let g := st.getD 6 0
  let h := st.getD 7 0
  let t1 := w32 (h + bSig1 e + chFn e f g + kw.1 + kw.2)
  let t2 := w32 (bSig0 a + majFn a b c)
  [w32 (t1 + t2), a, b, c, w32 (d + t1), e, f, g]

def compressBlock (hsh : List Nat) (block : List Nat) : List Nat :=
  let st := (K256.zip (schedule block)).foldl compressStep hsh
  (hsh.zip st).map (fun p => w32 (p.1 + p.2))

def sha256Words (msg : List Nat) : List Nat :=
  (chunk64 ((padMessage msg).length / 64) (padMessage msg)).foldl compressBlock H256

def hexDigitChar (n : Nat) : Char := if n < 10 then Char.ofNat (48 + n) else Char.ofNat (87 + n)

def wordHex (n : Nat) : List Char :=
  (List.range 8).map (fun i => hexDigitChar ((n >>> (4 * (7 - i))) % 16))

/-- `digest("hex")`: the 64-character lower-case hex digest. -/
def sha256hex (msg : List Nat) : String :=
  ⟨(sha256Words msg).flatMap wordHex⟩

/-- FIPS 180-4 test vector, validating the digest model. -/
theorem sha256hex_abc :
    sha256hex (strBytes "abc") =
      "ba7816bf8f01cfea414140de5dae2223b00361a396177a9cb410ff61f20015ad" := by decide

/-! ### Normalizer (`server/ingest/normalizer.ts`) -/

/-- One escaped code point of `JSON.stringify` string serialization. -/
def hexDigitByte (n : Nat) : Nat := if n < 10 then 48 + n else 87 + n

def jsonEscapeByte (c : Nat) : List Nat :=
  if c = 34 then [92, 34]
  else if c = 92 then [92, 92]
  else if c = 8 then [92, 98]
  else if c = 9 then [92, 116]
  else if c = 10 then [92, 110]
  else if c = 12 then [92, 102]
  else if c = 13 then [92, 114]
  else if c < 32 then [92, 117, 48, 48, hexDigitByte (c / 16), hexDigitByte (c % 16)]
  else [c]

def jsonStr (s : String) : List Nat := [34] ++ (strBytes s).flatMap jsonEscapeByte ++ [34]

/-- `JSON.stringify` of one `{type, value}` indicator, key order as in the
object literal (bytes 123/125 are the braces, 58 the colon, 44 the comma). -/
def jsonIndicator (i : Indicator) : List Nat :=
  [123] ++ jsonStr "type" ++ [58] ++ jsonStr i.type ++ [44] ++
  jsonStr "value" ++ [58] ++ jsonStr i.value ++ [125]

/-- `JSON.stringify` of the indicators array, in array order. -/
def jsonIndicators (l : List Indicator) : List Nat :=
  [91] ++ List.intercalate [44] (l.map jsonIndicator) ++ [93]

/-- A template-literal slot holding `string | undefined`. -/
def tmplOptBytes (s : Option String) : List Nat :=
  match s with
  | none => strBytes "undefined"
  | some v => strBytes v

/-- The pre-image string of the content hash:
`title + "|" + description + "|" + JSON.stringify(indicators)` (byte 124 is the pipe). -/
def contentBytes (title : String) (description : Option String)
    (indicators : List Indicator) : List Nat :=
  strBytes title ++ [124] ++ tmplOptBytes description ++ [124] ++ jsonIndicators indicators

/-- `Omit<NormalizedThreat, "contentHash">`. -/
structure ThreatPre where
  source : String
  sourceId : Option String
  sourceUrl : Option String
  title : String
  description : Option String
  type : String
  severity : String
  indicators : List Indicator
  tags : List String
  firstSeen : Int
  lastSeen : Int
  discoveredAt : Int
deriving DecidableEq, Repr

/-- `computeContentHash`: the SHA-256 hex digest of the content string. -/
def computeContentHash (t : ThreatPre) : String :=
  sha256hex (contentBytes t.title t.description t.indicators)

structure NormalizedThreat where
  source : String
  sourceId : Option String
  sourceUrl : Option String
  title : String
  description : Option String
  type : String
  severity : String
  indicators : List Indicator
  tags : List String
  contentHash : String
  firstSeen : Int
  lastSeen : Int
  discoveredAt : Int
deriving DecidableEq, Repr

/-- `{...threat, contentHash: computeContentHash(threat)}`. -/
def withHash (t : ThreatPre) : NormalizedThreat :=
  { source := t.source, sourceId := t.sourceId, sourceUrl := t.sourceUrl, title := t.title,
    description := t.description, type := t.type, severity := t.severity,
    indicators := t.indicators, tags := t.tags, contentHash := computeContentHash t,
    firstSeen := t.firstSeen, lastSeen := t.lastSeen, discoveredAt := t.discoveredAt }

structure OTXIndicator where
  type : String
  indicator : String
deriving DecidableEq, Repr

/-- An OTX pulse as the normalizer reads it (every field may be absent). -/
structure OTXPulse where
  id : Option String
  name : Option String
  description : Option String
  TLP : Option String
  tags : Option (List String)
  indicators : Option (List OTXIndicator)
  created : Option Int
  modified : Option Int
deriving DecidableEq, Repr

/-- `x || dflt` for a possibly-absent string (absent and empty are falsy). -/
def jsOrStr (v : Option String) (dflt : String) : String :=
  match v with
  | none => dflt
  | some s => if s = "" then dflt else s

/-- `inferThreatType`: first indicator type through the fixed table;
no indicators means "malware". -/
def inferThreatType (indicators : List OTXIndicator) : String :=
  match indicators with
  | [] => "malware"
  | first :: _ =>
    if first.type = "IPv4" then "ip"
    else if first.type = "domain" then "domain"
    else if first.type = "hash" then "hash"
    else if first.type = "URL" then "malicious_url"
    else "malware"

/-- `mapOTXSeverity`: a falsy TLP (absent or empty) yields "medium"; a
present but unmapped TLP falls through to "info". -/
def mapOTXSeverity (tlp : Option String) : String :=
  match tlp with
  | none => "medium"
  | some s =>
    if s = "" then "medium"
    else if s = "red" then "critical"
    else if s = "amber" then "high"
    else if s = "green" then "low"
    else "info"

/-- One tag passes the fintech filter when its lower-casing contains one of
the three keywords. -/
def isFintechTag (t : String) : Bool :=
  jsIncludes t "fintech" || jsIncludes t "finance" || jsIncludes t "bank"

/-- `normalizeOTXPulse(pulse)`, with `new Date()` the explicit `now`. -/
def normalizeOTXPulse (pulse : OTXPulse) (now : Int) : NormalizedThreat :=
  let indicators := (pulse.indicators.getD []).map (fun i => Indicator.mk i.type i.indicator)
  let tags := pulse.tags.getD []
  let fintechTags := tags.filter isFintechTag
  withHash
    { source := "AlienVault OTX"
      sourceId := pulse.id
      sourceUrl := some ("https://otx.alienvault.com/pulse/" ++
        (match pulse.id with | none => "undefined" | some i => i))
      title := jsOrStr pulse.name "Unnamed OTX Pulse"
      description := pulse.description
      type := inferThreatType (pulse.indicators.getD [])
      severity := mapOTXSeverity pulse.TLP
      indicators := indicators
      tags := if fintechTags.length > 0 then fintechTags else tags
      firstSeen := pulse.created.getD now
      lastSeen := pulse.modified.getD now
      discoveredAt := now }

/-! ### Deduplicator and ingestion loop
(`server/ingest/deduplicator.ts`, `server/ingest/index.ts`) -/

/-- `isDuplicate(contentHash)`: lookup against the store's unique column. -/
def isDuplicate (store : List NormalizedThreat) (h : String) : Bool :=
  store.any (fun r => r.contentHash == h)

/-- `updateLastSeen(contentHash, now)`: set `lastSeen = now` on the matching row. -/
def updateLastSeen (store : List NormalizedThreat) (h : String) (now : Int) :
    List NormalizedThreat :=
  store.map (fun r => if r.contentHash == h then {r with lastSeen := now} else r)

/-- One iteration of the dedup-and-insert loop of `ingestFromSource`;
returns the new store and whether the threat was a duplicate. -/
def ingestThreat (store : List NormalizedThreat) (t : NormalizedThreat) (now : Int) :
    List NormalizedThreat × Bool :=
  if isDuplicate store t.contentHash then (updateLastSeen store t.contentHash now, true)
  else (store ++ [t], false)

/-- The whole loop over a normalized batch, accumulating the run counters
`(store, inserted, duplicates)`. -/
def ingestLoop (store : List NormalizedThreat) (threats : List NormalizedThreat) (now : Int) :
    List NormalizedThreat × Nat × Nat :=
  match threats with
  | [] => (store, 0, 0)
  | t :: rest =>
    let step := ingestThreat store t now
    let restRes := ingestLoop step.1 rest now
    (restRes.1, restRes.2.1 + (if step.2 then 0 else 1), restRes.2.2 + (if step.2 then 1 else 0))

/-! ### C5 — content-hash identity -/

/-- C5 (amended): `contentHash` is a function of exactly title, description
and the indicator LIST — equal title, equal description and the same
indicators in the same order give the identical hash, whatever the other
fields; but the serialization preserves indicator order, so it is not
invariant under reordering. -/
theorem computeContentHash_congr (t1 t2 : ThreatPre) (h1 : t1.title = t2.title)
    (h2 : t1.description = t2.description) (h3 : t1.indicators = t2.indicators) :
    computeContentHash t1 = computeContentHash t2 := by
  unfold computeContentHash
  rw [h1, h2, h3]

def mkPre (inds : List Indicator) (src : String) : ThreatPre :=
  { source := src, sourceId := none, sourceUrl := none, title := "t",
    description := none, type := "malware", severity := "info",
    indicators := inds, tags := [], firstSeen := 0, lastSeen := 0, discoveredAt := 0 }

def tOrdA : ThreatPre := mkPre [⟨"a", "b"⟩, ⟨"c", "d"⟩] "s"
def tOrdB : ThreatPre := mkPre [⟨"c", "d"⟩, ⟨"a", "b"⟩] "s"

/-- C5 counterexample: two items with equal title, equal description and
the same multiset of indicators, listed in a different order, get
different SHA-256 content hashes — `JSON.stringify` serializes the
indicators array in payload order, with no canonical reordering. -/
theorem contentHash_order_counterexample :
    tOrdA.title = tOrdB.title ∧ tOrdA.description = tOrdB.description ∧
    tOrdA.indicators.Perm tOrdB.indicators ∧
    computeContentHash tOrdA ≠ computeContentHash tOrdB :=
  ⟨rfl, rfl, by decide, by decide⟩

/-- C5 witness: two concrete items equal in the three hashed fields but
differing in `source` hash identically. -/
theorem computeContentHash_congr_witness :
    computeContentHash (mkPre [⟨"a", "b"⟩] "s1") = computeContentHash (mkPre [⟨"a", "b"⟩] "s2") :=
  computeContentHash_congr (mkPre [⟨"a", "b"⟩] "s1") (mkPre [⟨"a", "b"⟩] "s2") rfl rfl rfl

/-! ### C8 — default severity mapping -/

/-- C8 counterexample: a missing TLP resolves to "medium" while a present
but unmapped TLP ("white") resolves to "info" — there is no single
default shared by the missing and unmapped cases. -/
theorem mapOTXSeverity_default_counterexample :
    mapOTXSeverity none = "medium" ∧ mapOTXSeverity (some "white") = "info" ∧
    mapOTXSeverity none ≠ mapOTXSeverity (some "white") :=
  ⟨rfl, rfl, by decide⟩

/-- C8 (amended): the Normalizer's severity fallback is split: a falsy TLP
(absent or empty string) resolves to "medium", while every present TLP
outside the mapped table \x7b red, amber, green \x7d resolves to "info". -/
theorem mapOTXSeverity_defaults :
    mapOTXSeverity none = "medium" ∧ mapOTXSeverity (some "") = "medium" ∧
    (∀ s : String, s ∉ ["", "red", "amber", "green"] → mapOTXSeverity (some s) = "info") := by
  refine ⟨rfl, rfl, fun s hs => ?_⟩
  simp only [List.mem_cons, List.not_mem_nil] at hs
  push_neg at hs
  simp only [mapOTXSeverity]
  split_ifs <;> simp_all

/-- C8 witness: the unmapped branch evaluated at the concrete TLP "white". -/
theorem mapOTXSeverity_defaults_witness :
    mapOTXSeverity (some "white") = "info" :=
  mapOTXSeverity_defaults.2.2 "white" (by decide)

/-! ### C9 — normalization totality -/

/-- C9 (amended): normalization never fails: a missing title is replaced by
the default "Unnamed OTX Pulse", missing timestamps default to `now`,
`discoveredAt` is always `now`, and every item of a batch is normalized
(the mapped batch has the same length — nothing is skipped). -/
theorem normalizeOTXPulse_never_fails (pulse : OTXPulse) (now : Int)
    (pulses : List OTXPulse) :
    (pulse.name = none → (normalizeOTXPulse pulse now).title = "Unnamed OTX Pulse") ∧
    (pulse.created = none → (normalizeOTXPulse pulse now).firstSeen = now) ∧
    (pulse.modified = none → (normalizeOTXPulse pulse now).lastSeen = now) ∧
    (normalizeOTXPulse pulse now).discoveredAt = now ∧
    (pulses.map (fun p => normalizeOTXPulse p now)).length = pulses.length := by
  refine ⟨fun h => ?_, fun h => ?_, fun h => ?_, ?_, ?_⟩
  · show jsOrStr pulse.name "Unnamed OTX Pulse" = "Unnamed OTX Pulse"
    rw [h]
    rfl
  · show pulse.created.getD now = now
    rw [h]
    rfl
  · show pulse.modified.getD now = now
    rw [h]
    rfl
  · rfl
  · exact List.length_map _ _

def pulseNoName : OTXPulse :=
  { id := none, name := none, description := none, TLP := none, tags := none,
    indicators := none, created := none, modified := none }

/-- C9 counterexample: an item with no title is not rejected: it normalizes
to the default title and the ingestion loop inserts it (1 inserted, so it
was not skipped or counted as an error). -/
theorem normalize_no_title_counterexample :
    pulseNoName.name = none ∧
    (normalizeOTXPulse pulseNoName 0).title = "Unnamed OTX Pulse" ∧
    (ingestLoop [] [normalizeOTXPulse pulseNoName 0] 0).1.length = 1 ∧
    (ingestLoop [] [normalizeOTXPulse pulseNoName 0] 0).2.1 = 1 :=
  ⟨rfl, rfl, rfl, rfl⟩

/-- C9 witness: all defaults evaluated on the all-absent pulse at now = 7. -/
theorem normalizeOTXPulse_never_fails_witness :
    (normalizeOTXPulse pulseNoName 7).title = "Unnamed OTX Pulse" ∧
    (normalizeOTXPulse pulseNoName 7).firstSeen = 7 ∧
    (normalizeOTXPulse pulseNoName 7).lastSeen = 7 ∧
    (normalizeOTXPulse pulseNoName 7).discoveredAt = 7 ∧
    ([pulseNoName].map (fun p => normalizeOTXPulse p 7)).length = 1 := by
  obtain ⟨a, b, c, d, e⟩ := normalizeOTXPulse_never_fails pulseNoName 7 [pulseNoName]
  exact ⟨a rfl, b rfl, c rfl, d, e⟩

/-! ### C1 — ingestion idempotence -/

theorem updateLastSeen_hashes (s : List NormalizedThreat) (h : String) (now : Int) :
    (updateLastSeen s h now).map (fun r => r.contentHash) = s.map (fun r => r.contentHash) := by
  induction s with
  | nil => rfl
  | cons a tl ih =>
    unfold updateLastSeen at ih ⊢
    simp only [List.map_cons]
    rw [ih]
    by_cases hc : (a.contentHash == h) = true
    · rw [if_pos hc]
    · rw [if_neg hc]

theorem updateLastSeen_length (s : List NormalizedThreat) (h : String) (now : Int) :
    (updateLastSeen s h now).length = s.length := by
  unfold updateLastSeen
  exact List.length_map _ _

theorem isDuplicate_iff (s : List NormalizedThreat) (h : String) :
    isDuplicate s h = true ↔ h ∈ s.map (fun r => r.contentHash) := by
  rw [List.mem_map]
  simp [isDuplicate, List.any_eq_true, beq_iff_eq]

theorem updateLastSeen_sets (s : List NormalizedThreat) (h : String) (now : Int) :
    ∀ r ∈ updateLastSeen s h now, r.contentHash = h → r.lastSeen = now := by
  intro r hr hch
  unfold updateLastSeen at hr
  rw [List.mem_map] at hr
  obtain ⟨a, ha, rfl⟩ := hr
  by_cases hc : a.contentHash = h
  · have hb : (a.contentHash == h) = true := beq_iff_eq.mpr hc
    rw [if_pos hb]
  · have hb : ¬((a.contentHash == h) = true) := by simpa using hc
    rw [if_neg hb] at hch
    exact absurd hch hc

/-- C1 (amended): under the store invariant that contentHash values are
unique, ingesting the same payload item twice never yields two rows with
its contentHash: the second ingestion inserts nothing (the store length
is unchanged) and sets the matched row's lastSeen to the second
observation time `n2` — unconditionally, not to max(existing.lastSeen, n2). -/
theorem ingest_twice_dedup (store : List NormalizedThreat) (t : NormalizedThreat) (n1 n2 : Int)
    (hnd : (store.map (fun r => r.contentHash)).Nodup) :
    (((ingestThreat (ingestThreat store t n1).1 t n2).1).map (fun r => r.contentHash)).Nodup ∧
    ((ingestThreat (ingestThreat store t n1).1 t n2).1).length =
      ((ingestThreat store t n1).1).length ∧
    (∀ r ∈ (ingestThreat (ingestThreat store t n1).1 t n2).1,
      r.contentHash = t.contentHash → r.lastSeen = n2) := by
  set s1 := (ingestThreat store t n1).1 with hs1def
  have key : (s1.map (fun r => r.contentHash)).Nodup ∧
      t.contentHash ∈ s1.map (fun r => r.contentHash) := by
    rw [hs1def]
    unfold ingestThreat
    by_cases hdup : isDuplicate store t.contentHash = true
    · rw [if_pos hdup]
      dsimp only
      rw [updateLastSeen_hashes]
      exact ⟨hnd, (isDuplicate_iff store t.contentHash).mp hdup⟩
    · rw [if_neg hdup]
      dsimp only
      have hnotin : t.contentHash ∉ store.map (fun r => r.contentHash) := fun hmem =>
        hdup ((isDuplicate_iff store t.contentHash).mpr hmem)
      rw [List.map_append]
      constructor
      · simp [List.nodup_append, hnd, hnotin]
      · simp
  obtain ⟨hnd1, hmem1⟩ := key
  have hdup2 : isDuplicate s1 t.contentHash = true :=
    (isDuplicate_iff _ _).mpr hmem1
  have hs2 : (ingestThreat s1 t n2).1 = updateLastSeen s1 t.contentHash n2 := by
    unfold ingestThreat
    rw [if_pos hdup2]
  rw [hs2]
  exact ⟨by rw [updateLastSeen_hashes]; exact hnd1,
    updateLastSeen_length s1 t.contentHash n2,
    updateLastSeen_sets s1 t.contentHash n2⟩

def tDup : NormalizedThreat :=
  { source := "s", sourceId := none, sourceUrl := none, title := "x",
    description := none, type := "malware", severity := "info",
    indicators := [], tags := [], contentHash := "h",
    firstSeen := 0, lastSeen := 100, discoveredAt := 0 }

/-- C1 counterexample: re-ingesting a threat whose stored row has
lastSeen = 100 at observation time 50 rewrites lastSeen to 50, not to
max(100, 50) = 100 — `updateLastSeen` sets, it does not take a maximum. -/
theorem ingest_lastSeen_not_max :
    tDup.lastSeen = 100 ∧
    ((ingestThreat (ingestThreat [] tDup 99).1 tDup 50).1.map (fun r => r.lastSeen)) = [50] ∧
    (50 : Int) ≠ max 100 50 :=
  ⟨rfl, rfl, by decide⟩

/-- C1 witness: the amended idempotence statement evaluated from the empty
store with two concrete observation times. -/
theorem ingest_twice_dedup_witness :
    (((ingestThreat (ingestThreat [] tDup 1).1 tDup 2).1).map (fun r => r.contentHash)).Nodup ∧
    ((ingestThreat (ingestThreat [] tDup 1).1 tDup 2).1).length =
      ((ingestThreat [] tDup 1).1).length ∧
    (∀ r ∈ (ingestThreat (ingestThreat [] tDup 1).1 tDup 2).1,
      r.contentHash = tDup.contentHash → r.lastSeen = 2) :=
  ingest_twice_dedup [] tDup 1 2 (by simp)

/-! ### C7 — baseline metric upsert (`detectSpikes`) -/

structure MetricRow where
  metric : String
  windowDays : Int
  baselineValue : ℚ
  currentValue : ℚ
  spikeThreshold : ℚ
  calculatedAt : Int
  updatedAt : Int
deriving DecidableEq, Repr

/-- `insert(...).onConflictDoUpdate(target: metric, set: {currentValue, updatedAt})`:
when a row with the metric name exists, only `currentValue` and `updatedAt`
are written; otherwise the full row is inserted. -/
def upsertMetric (rows : List MetricRow) (row : MetricRow) : List MetricRow :=
  if rows.any (fun r => r.metric == row.metric) then
    rows.map (fun r =>
      if r.metric == row.metric then
        {r with currentValue := row.currentValue, updatedAt := row.updatedAt}
      else r)
  else rows ++ [row]

def METRIC_CONFIGS : List (String × Int) :=
  [("fintech_intel_count", 30), ("critical_severity_count", 7)]

/-- Rows discovered strictly before the trailing window — a count over ALL
records, with no per-metric predicate. -/
def baselineCount (records : List IntelRecord) (now : Int) (windowDays : Int) : Nat :=
  (records.filter (fun r => decide (r.discoveredAt < now - windowDays * 86400000))).length

/-- Rows discovered in the last 24 hours (inclusive bound, `gte`). -/
def currentCount (records : List IntelRecord) (now : Int) : Nat :=
  (records.filter (fun r => decide (now - 86400000 ≤ r.discoveredAt))).length

/-- The row value `detectSpikes` computes for one metric config. -/
def metricRowFor (records : List IntelRecord) (now : Int) (cfg : String × Int) : MetricRow :=
  { metric := cfg.1, windowDays := cfg.2,
    baselineValue := (baselineCount records now cfg.2 : ℚ) / (cfg.2 : ℚ),
    currentValue := (currentCount records now : ℚ),
    spikeThreshold := 3/2, calculatedAt := now, updatedAt := now }

/-- `detectSpikes()`: one upsert per configured metric (the spike log line
is I/O and not part of the stored state). -/
def detectSpikes (rows : List MetricRow) (records : List IntelRecord) (now : Int) :
    List MetricRow :=
  METRIC_CONFIGS.foldl (fun acc cfg => upsertMetric acc (metricRowFor records now cfg)) rows

theorem metricUpdate_names (rows : List MetricRow) (m : String) (cv : ℚ) (ua : Int) :
    (rows.map (fun r => if r.metric == m then
        {r with currentValue := cv, updatedAt := ua} else r)).map (fun r => r.metric) =
      rows.map (fun r => r.metric) := by
  induction rows with
  | nil => rfl
  | cons a tl ih =>
    simp only [List.map_cons]
    rw [ih]
    by_cases hc : (a.metric == m) = true
    · rw [if_pos hc]
    · rw [if_neg hc]

theorem metricAny_iff (rows : List MetricRow) (m : String) :
    rows.any (fun r => r.metric == m) = true ↔ m ∈ rows.map (fun r => r.metric) := by
  rw [List.mem_map]
  simp [List.any_eq_true, beq_iff_eq]

theorem upsertMetric_names (rows : List MetricRow) (row : MetricRow) :
    (upsertMetric rows row).map (fun r => r.metric) =
      if row.metric ∈ rows.map (fun r => r.metric) then rows.map (fun r => r.metric)
      else rows.map (fun r => r.metric) ++ [row.metric] := by
  unfold upsertMetric
  by_cases hx : rows.any (fun r => r.metric == row.metric) = true
  · rw [if_pos hx, if_pos ((metricAny_iff rows row.metric).mp hx)]
    exact metricUpdate_names rows row.metric row.currentValue row.updatedAt
  · rw [if_neg hx, if_neg (fun hm => hx ((metricAny_iff rows row.metric).mpr hm))]
    rw [List.map_append]
    rfl

theorem upsertMetric_nodup (rows : List MetricRow) (row : MetricRow)
    (hnd : (rows.map (fun r => r.metric)).Nodup) :
    ((upsertMetric rows row).map (fun r => r.metric)).Nodup := by
  rw [upsertMetric_names]
  by_cases hm : row.metric ∈ rows.map (fun r => r.metric)
  · rw [if_pos hm]; exact hnd
  · rw [if_neg hm]; simp [List.nodup_append, hnd, hm]

theorem upsertMetric_mem_self (rows : List MetricRow) (row : MetricRow) :
    row.metric ∈ (upsertMetric rows row).map (fun r => r.metric) := by
  rw [upsertMetric_names]
  by_cases hm : row.metric ∈ rows.map (fun r => r.metric)
  · rw [if_pos hm]; exact hm
  · rw [if_neg hm]; simp

theorem upsertMetric_mem_mono (rows : List MetricRow) (row : MetricRow) (m : String)
    (hm : m ∈ rows.map (fun r => r.metric)) :
    m ∈ (upsertMetric rows row).map (fun r => r.metric) := by
  rw [upsertMetric_names]
  by_cases hx : row.metric ∈ rows.map (fun r => r.metric)
  · rw [if_pos hx]; exact hm
  · rw [if_neg hx]; exact List.mem_append_left _ hm

theorem upsertMetric_values (rows : List MetricRow) (row : MetricRow) :
    ∀ r ∈ upsertMetric rows row, r.metric = row.metric →
      r.currentValue = row.currentValue ∧ r.updatedAt = row.updatedAt := by
  intro r hr hm
  unfold upsertMetric at hr
  by_cases hx : rows.any (fun r => r.metric == row.metric) = true
  · rw [if_pos hx] at hr
    rw [List.mem_map] at hr
    obtain ⟨a, ha, rfl⟩ := hr
    by_cases hc : (a.metric == row.metric) = true
    · rw [if_pos hc]
      exact ⟨rfl, rfl⟩
    · rw [if_neg hc] at hm ⊢
      exact absurd (beq_iff_eq.mpr hm) hc
  · rw [if_neg hx] at hr
    rcases List.mem_append.mp hr with hin | hone
    · exfalso
      exact hx (List.any_eq_true.mpr ⟨r, hin, beq_iff_eq.mpr hm⟩)
    · rw [List.mem_singleton.mp hone]
      exact ⟨rfl, rfl⟩

theorem upsertMetric_untouched (rows : List MetricRow) (row : MetricRow) :
    ∀ r ∈ upsertMetric rows row, r.metric ≠ row.metric → r ∈ rows := by
  intro r hr hne
  unfold upsertMetric at hr
  by_cases hx : rows.any (fun r => r.metric == row.metric) = true
  · rw [if_pos hx] at hr
    rw [List.mem_map] at hr
    obtain ⟨a, ha, rfl⟩ := hr
    by_cases hc : (a.metric == row.metric) = true
    · rw [if_pos hc] at hne ⊢
      exact absurd (beq_iff_eq.mp hc) hne
    · rw [if_neg hc]
      exact ha
  · rw [if_neg hx] at hr
    rcases List.mem_append.mp hr with hin | hone
    · exact hin
    · exact absurd (congrArg (fun r => r.metric) (List.mem_singleton.mp hone)) hne

theorem upsertMetric_fresh (rows : List MetricRow) (row : MetricRow)
    (hfresh : row.metric ∉ rows.map (fun r => r.metric)) :
    ∀ r ∈ upsertMetric rows row, r.metric = row.metric → r = row := by
  intro r hr hm
  unfold upsertMetric at hr
  have hx : ¬(rows.any (fun r => r.metric == row.metric) = true) := fun hx =>
    hfresh ((metricAny_iff rows row.metric).mp hx)
  rw [if_neg hx] at hr
  rcases List.mem_append.mp hr with hin | hone
  · exfalso
    exact hfresh (hm ▸ List.mem_map_of_mem (fun r => r.metric) hin)
  · exact List.mem_singleton.mp hone

/-- C7 (amended): every detection run upserts each configured metric by
name: afterwards names are unique and both configured names are present,
and every row named by a config carries the freshly computed last-24h
`currentValue` and `updatedAt = now`; but `baselineValue` equals
count(records before the window)/windowDays only when the row was
freshly inserted — the on-conflict update does not rewrite it (and the
counts range over all records, with no per-metric matching). -/
theorem detectSpikes_upsert_by_name (rows : List MetricRow) (records : List IntelRecord)
    (now : Int) (hnd : (rows.map (fun r => r.metric)).Nodup) :
    ((detectSpikes rows records now).map (fun r => r.metric)).Nodup ∧
    (∀ cfg ∈ METRIC_CONFIGS, cfg.1 ∈ (detectSpikes rows records now).map (fun r => r.metric)) ∧
    (∀ cfg ∈ METRIC_CONFIGS, ∀ r ∈ detectSpikes rows records now, r.metric = cfg.1 →
      r.currentValue = (currentCount records now : ℚ) ∧ r.updatedAt = now) ∧
    (∀ cfg ∈ METRIC_CONFIGS, cfg.1 ∉ rows.map (fun r => r.metric) →
      ∀ r ∈ detectSpikes rows records now, r.metric = cfg.1 →
        r.baselineValue = (baselineCount records now cfg.2 : ℚ) / (cfg.2 : ℚ)) := by
  have hDS : detectSpikes rows records now =
      upsertMetric (upsertMetric rows (metricRowFor records now ("fintech_intel_count", 30)))
        (metricRowFor records now ("critical_severity_count", 7)) := rfl
  set m1 := metricRowFor records now ("fintech_intel_count", 30) with hm1
  set m2 := metricRowFor records now ("critical_severity_count", 7) with hm2
  set rows1 := upsertMetric rows m1 with hrows1
  rw [hDS]
  have hm1name : m1.metric = "fintech_intel_count" := rfl
  have hm2name : m2.metric = "critical_severity_count" := rfl
  have hnd1 : (rows1.map (fun r => r.metric)).Nodup := upsertMetric_nodup rows m1 hnd
  refine ⟨upsertMetric_nodup rows1 m2 hnd1, ?_, ?_, ?_⟩
  · intro cfg hcfg
    simp only [METRIC_CONFIGS, List.mem_cons, List.not_mem_nil, or_false] at hcfg
    rcases hcfg with rfl | rfl
    · exact upsertMetric_mem_mono rows1 m2 _ (upsertMetric_mem_self rows m1)
    · exact upsertMetric_mem_self rows1 m2
  · intro cfg hcfg r hr hm
    simp only [METRIC_CONFIGS, List.mem_cons, List.not_mem_nil, or_false] at hcfg
    rcases hcfg with rfl | rfl
    · have hne : r.metric ≠ m2.metric := by rw [hm, hm2name]; decide
      have hr1 : r ∈ rows1 := upsertMetric_untouched rows1 m2 r hr hne
      exact upsertMetric_values rows m1 r hr1 (by rw [hm, hm1name])
    · exact upsertMetric_values rows1 m2 r hr (by rw [hm, hm2name])
  · intro cfg hcfg hfresh r hr hm
    simp only [METRIC_CONFIGS, List.mem_cons, List.not_mem_nil, or_false] at hcfg
    rcases hcfg with rfl | rfl
    · have hne : r.metric ≠ m2.metric := by rw [hm, hm2name]; decide
      have hr1 : r ∈ rows1 := upsertMetric_untouched rows1 m2 r hr hne
      have hfr : m1.metric ∉ rows.map (fun r => r.metric) := hfresh
      have hrm1 : r = m1 := upsertMetric_fresh rows m1 hfr r hr1 (by rw [hm, hm1name])
      rw [hrm1]
      rfl
    · have hfr2 : m2.metric ∉ rows1.map (fun r => r.metric) := by
        rw [hrows1, upsertMetric_names]
        by_cases hx : m1.metric ∈ rows.map (fun r => r.metric)
        · rw [if_pos hx]
          exact hfresh
        · rw [if_neg hx]
          intro hmem
          rcases List.mem_append.mp hmem with ha | hb
          · exact hfresh ha
          · exact absurd (List.mem_singleton.mp hb) (by rw [hm1name, hm2name]; decide)
      have hrm2 : r = m2 := upsertMetric_fresh rows1 m2 hfr2 r hr (by rw [hm, hm2name])
      rw [hrm2]
      rfl

def row0 : MetricRow :=
  { metric := "fintech_intel_count", windowDays := 30, baselineValue := 5,
    currentValue := 1, spikeThreshold := 3/2, calculatedAt := 0, updatedAt := 0 }

/-- C7 counterexample: when a row for the metric name already exists, the
run leaves its `baselineValue` untouched: starting from a stored baseline
of 5 and an empty record set (recomputed baseline 0), the row still holds
5 after `detectSpikes`, not count/windowDays = 0. -/
theorem detectSpikes_stale_baseline :
    ((detectSpikes [row0] [] 0).map (fun r => r.metric)).head? = some "fintech_intel_count" ∧
    ((detectSpikes [row0] [] 0).map (fun r => r.baselineValue)).head? = some 5 ∧
    (baselineCount [] 0 30 : ℚ) / ((30 : Int) : ℚ) = 0 ∧ (5 : ℚ) ≠ 0 := by
  refine ⟨rfl, rfl, ?_, by norm_num⟩
  norm_num [baselineCount]

/-- C7 witness: the amended statement evaluated on the empty store, where
both rows are fresh inserts. -/
theorem detectSpikes_upsert_by_name_witness :
    ((detectSpikes [] [] 0).map (fun r => r.metric)).Nodup ∧
    (∀ cfg ∈ METRIC_CONFIGS, cfg.1 ∈ (detectSpikes [] [] 0).map (fun r => r.metric)) ∧
    (∀ cfg ∈ METRIC_CONFIGS, ∀ r ∈ detectSpikes [] [] 0, r.metric = cfg.1 →
      r.currentValue = (currentCount [] 0 : ℚ) ∧ r.updatedAt = 0) ∧
    (∀ cfg ∈ METRIC_CONFIGS, cfg.1 ∉ ([] : List MetricRow).map (fun r => r.metric) →
      ∀ r ∈ detectSpikes [] [] 0, r.metric = cfg.1 →
        r.baselineValue = (baselineCount [] 0 cfg.2 : ℚ) / (cfg.2 : ℚ)) :=
  detectSpikes_upsert_by_name [] [] 0 (by simp)

/-! ### C4 — alert emission (spec-modelled)

No code under src/ creates Alerts from RiskScores: `computeAllRisks` only
appends `risk_scores` rows and `detectSpikes` only logs spikes. The Alert
Emitter below is therefore modelled from the spec (section 4.6). -/

structure RiskScoreRow where
  id : String
  threatIntelId : String
  score : ℤ
  severity : String
  reasoning : String
deriving DecidableEq, Repr

structure AlertRow where
  riskScoreId : Option String
  threatIntelId : Option String
  severity : String
  title : String
  message : String
deriving DecidableEq, Repr

/-- Modelled from the spec: the Alert Emitter's existence check on the
trigger reference — `alerts` queried by `riskScoreId`. The emitter itself
is absent from src/; only the `alerts` table and generic `createAlert`
storage exist. -/
def alertExistsFor (alerts : List AlertRow) (rsId : String) : Bool :=
  alerts.any (fun a => a.riskScoreId == some rsId)

/-- Modelled from the spec: a RiskScore qualifies when its score crosses
the alert threshold (score > 70; score > 85 is the critical tier of the
same qualifying range). -/
def qualifiesForAlert (rs : RiskScoreRow) : Bool := decide (70 < rs.score)

/-- Modelled from the spec: one Alert referencing the trigger, severity
copied from the trigger, message derived from its reasoning. -/
def mkAlert (rs : RiskScoreRow) : AlertRow :=
  { riskScoreId := some rs.id, threatIntelId := some rs.threatIntelId,
    severity := rs.severity, title := "Risk threshold exceeded", message := rs.reasoning }

/-- Modelled from the spec: check-before-insert idempotency per triggering
RiskScore id. -/
def emitAlertForScore (alerts : List AlertRow) (rs : RiskScoreRow) : List AlertRow :=
  if qualifiesForAlert rs && !(alertExistsFor alerts rs.id) then alerts ++ [mkAlert rs]
  else alerts

/-- Modelled from the spec: the alert pass of the scoring+alert pipeline
over all RiskScores of the run. -/
def emitAlerts (scores : List RiskScoreRow) (alerts : List AlertRow) : List AlertRow :=
  scores.foldl emitAlertForScore alerts

def alertCountFor (alerts : List AlertRow) (rsId : String) : Nat :=
  (alerts.filter (fun a => a.riskScoreId == some rsId)).length

theorem alertCountFor_append (l1 l2 : List AlertRow) (id : String) :
    alertCountFor (l1 ++ l2) id = alertCountFor l1 id + alertCountFor l2 id := by
  simp [alertCountFor, List.filter_append]

theorem alertExistsFor_pos (alerts : List AlertRow) (id : String) :
    alertExistsFor alerts id = true ↔ 0 < alertCountFor alerts id := by
  simp [alertExistsFor, alertCountFor, List.any_eq_true, List.length_pos_iff_exists_mem,
    List.mem_filter]

theorem alertExistsFor_zero (alerts : List AlertRow) (id : String)
    (h : alertExistsFor alerts id = false) : alertCountFor alerts id = 0 := by
  cases hcount : alertCountFor alerts id with
  | zero => rfl
  | succ n =>
    have hpos : alertExistsFor alerts id = true :=
      (alertExistsFor_pos alerts id).mpr (by omega)
    rw [h] at hpos
    exact absurd hpos (by simp)

theorem emitAlertForScore_exists_mono (alerts : List AlertRow) (s : RiskScoreRow) (id : String)
    (h : alertExistsFor alerts id = true) :
    alertExistsFor (emitAlertForScore alerts s) id = true := by
  unfold emitAlertForScore
  split
  · simp only [alertExistsFor, List.any_append] at h ⊢
    rw [h]
    rfl
  · exact h

theorem emitAlerts_exists_mono (scores : List RiskScoreRow) (alerts : List AlertRow) (id : String)
    (h : alertExistsFor alerts id = true) :
    alertExistsFor (emitAlerts scores alerts) id = true := by
  induction scores generalizing alerts with
  | nil => exact h
  | cons s tl ih => exact ih _ (emitAlertForScore_exists_mono alerts s id h)

theorem emitAlerts_covers (scores : List RiskScoreRow) (alerts : List AlertRow)
    (rs : RiskScoreRow) (hmem : rs ∈ scores) (hq : qualifiesForAlert rs = true) :
    alertExistsFor (emitAlerts scores alerts) rs.id = true := by
  induction scores generalizing alerts with
  | nil => exact absurd hmem (List.not_mem_nil rs)
  | cons s tl ih =>
    rcases List.mem_cons.mp hmem with rfl | htl
    · show alertExistsFor (emitAlerts tl (emitAlertForScore alerts rs)) rs.id = true
      apply emitAlerts_exists_mono
      unfold emitAlertForScore
      by_cases he : alertExistsFor alerts rs.id = true
      · split
        · simp only [alertExistsFor, List.any_append] at he ⊢
          rw [he]
          rfl
        · exact he
      · have hcond : (qualifiesForAlert rs && !(alertExistsFor alerts rs.id)) = true := by
          rw [hq, Bool.eq_false_iff.mpr he]
          rfl
        rw [if_pos hcond]
        simp [alertExistsFor, List.any_append, mkAlert]
    · exact ih _ htl

theorem emitAlerts_noop (scores : List RiskScoreRow) (alerts : List AlertRow)
    (h : ∀ rs ∈ scores, qualifiesForAlert rs = true → alertExistsFor alerts rs.id = true) :
    emitAlerts scores alerts = alerts := by
  induction scores with
  | nil => rfl
  | cons s tl ih =>
    have hstep : emitAlertForScore alerts s = alerts := by
      unfold emitAlertForScore
      by_cases hq : qualifiesForAlert s = true
      · rw [h s (List.mem_cons_self s tl) hq]
        simp
      · rw [Bool.eq_false_iff.mpr hq]
        simp
    show emitAlerts tl (emitAlertForScore alerts s) = alerts
    rw [hstep]
    exact ih (fun rs hrs hqr => h rs (List.mem_cons_of_mem s hrs) hqr)

theorem emitAlerts_at_most_one (scores : List RiskScoreRow) (alerts : List AlertRow)
    (h : ∀ i, alertCountFor alerts i ≤ 1) :
    ∀ i, alertCountFor (emitAlerts scores alerts) i ≤ 1 := by
  induction scores generalizing alerts with
  | nil => exact h
  | cons s tl ih =>
    show ∀ i, alertCountFor (emitAlerts tl (emitAlertForScore alerts s)) i ≤ 1
    apply ih
    intro i
    unfold emitAlertForScore
    by_cases hc : (qualifiesForAlert s && !(alertExistsFor alerts s.id)) = true
    · rw [if_pos hc]
      rw [alertCountFor_append]
      simp only [Bool.and_eq_true, Bool.not_eq_true'] at hc
      by_cases hid : i = s.id
      · subst hid
        rw [alertExistsFor_zero alerts s.id hc.2]
        simp [alertCountFor, mkAlert]
      · have hone : alertCountFor [mkAlert s] i = 0 := by
          simp [alertCountFor, mkAlert, Ne.symm hid]
        rw [hone]
        simpa using h i
    · rw [if_neg hc]
      exact h i

/-- C4: starting from no alerts, the alert pass creates exactly one Alert
referencing each RiskScore whose score crosses the threshold (score>70),
and re-running the pass over the unchanged score set is a no-op — never a
second Alert for the same triggering RiskScore id. -/
theorem emitAlerts_once_per_score (scores : List RiskScoreRow) (rs : RiskScoreRow)
    (hmem : rs ∈ scores) (hq : 70 < rs.score) :
    alertCountFor (emitAlerts scores []) rs.id = 1 ∧
    emitAlerts scores (emitAlerts scores []) = emitAlerts scores [] := by
  have hqb : qualifiesForAlert rs = true := by
    unfold qualifiesForAlert
    exact decide_eq_true hq
  constructor
  · have hle : alertCountFor (emitAlerts scores []) rs.id ≤ 1 :=
      emitAlerts_at_most_one scores [] (fun i => by simp [alertCountFor]) rs.id
    have hpos : 0 < alertCountFor (emitAlerts scores []) rs.id :=
      (alertExistsFor_pos _ _).mp (emitAlerts_covers scores [] rs hmem hqb)
    omega
  · exact emitAlerts_noop scores _
      (fun s hs hqs => emitAlerts_covers scores [] s hs hqs)

def rsEx : RiskScoreRow :=
  { id := "rs1", threatIntelId := "t1", score := 90, severity := "critical", reasoning := "r" }

/-- C4 witness: a concrete qualifying score yields exactly one alert and an
idempotent second pass. -/
theorem emitAlerts_once_per_score_witness :
    alertCountFor (emitAlerts [rsEx] []) rsEx.id = 1 ∧
    emitAlerts [rsEx] (emitAlerts [rsEx] []) = emitAlerts [rsEx] [] :=
  emitAlerts_once_per_score [rsEx] rsEx (List.mem_singleton.mpr rfl) (by decide)
